import Mathlib

set_option autoImplicit false
set_option maxRecDepth 40000

/-!
Shallow embedding of the buff package-registry client.

The embedding follows the sources under src/cli/bufflib/src (artifact.rs,
registry.rs, buff_cli_config.rs, package_metadata.rs) and, for the legacy
archive builder, src/cli/src/bin/buff/artifact.rs.  External collaborators
(the ignore crate walker, the tar and flate2 codecs, the toml codec, the
filesystem and the gRPC transport) are modelled by their contracts; every
piece of control flow of the repository itself is translated directly.
-/

/-- Package manifest metadata as deserialized from buff.toml
(src/cli/bufflib/src/package_metadata.rs); every field is required. -/
structure PackageMetadata where
  name : String
  description : String
  keywords : List String
  homepage : String
  repository_url : String
deriving DecidableEq, Repr

/-- Byte rendering of a manifest document, modelling the toml text stored in
the buff.toml file for the given metadata value. -/
def renderManifest (m : PackageMetadata) : List Nat :=
  (("[package]\nname = \"" ++ m.name ++ "\"\ndescription = \"" ++ m.description ++
    "\"\nkeywords = [" ++ String.intercalate ", " m.keywords ++ "]\nhomepage = \"" ++
    m.homepage ++ "\"\nrepository_url = \"" ++ m.repository_url ++ "\"\n").data.map Char.toNat)

/-- Content of a regular file.  Documents the client parses as toml manifests
are modelled at the value level: the external toml codec round-trips them. -/
inductive FileBody where
  | bytes (data : List Nat) : FileBody
  | manifestDoc (m : PackageMetadata) : FileBody
deriving DecidableEq, Repr

/-- Raw bytes of a file body as the archive builder reads them from disk. -/
def FileBody.toBytes : FileBody → List Nat
  | .bytes d => d
  | .manifestDoc m => renderManifest m

mutual
/-- A directory tree: a regular file with its content, or a directory with
named children. -/
inductive FsTree where
  | file (body : FileBody) : FsTree
  | dir (children : FsForest) : FsTree
/-- Named children of a directory, in the (deterministic) walk order of the
filesystem snapshot. -/
inductive FsForest where
  | nil : FsForest
  | cons (name : String) (t : FsTree) (rest : FsForest) : FsForest
end

deriving instance DecidableEq for FsTree
deriving instance DecidableEq for FsForest
deriving instance Repr for FsTree
deriving instance Repr for FsForest

/-- One entry yielded by the directory walker, carrying its path relative to
the walk root (the root itself has the empty relative path). -/
inductive WalkEntry where
  | file (relPath : List String) (body : FileBody) : WalkEntry
  | dir (relPath : List String) : WalkEntry
deriving DecidableEq, Repr

/-- Relative path of a walk entry. -/
def WalkEntry.relPath : WalkEntry → List String
  | .file p _ => p
  | .dir p => p

mutual
/-- Model of the ignore crate walker (ignore::Walk::new) over the tree sitting
at relative path p: the predicate ign abstracts the gitignore-style rules in
force during the walk; an entry matched by a rule is skipped together with its
whole subtree.  The root entry itself is always yielded first. -/
def walkTree (ign : List String → Bool) (p : List String) : FsTree → List WalkEntry
  | .file b => [WalkEntry.file p b]
  | .dir cs => WalkEntry.dir p :: walkForest ign p cs
/-- Walk of the children of a directory at relative path p, in order. -/
def walkForest (ign : List String → Bool) (p : List String) : FsForest → List WalkEntry
  | .nil => []
  | .cons n t rest =>
      (if ign (p ++ [n]) then [] else walkTree ign (p ++ [n]) t) ++ walkForest ign p rest
end

/-- Archive entry name for a relative path: the root maps to the canonical
current-directory marker, every other entry to its components joined with
forward slashes (create_tar of src/cli/bufflib/src/artifact.rs). -/
def tarName (relPath : List String) : String :=
  if relPath = [] then "./" else String.intercalate "/" relPath

/-- A framed archive record: entry name, kind, and raw bytes for files. -/
structure TarRecord where
  name : String
  isDir : Bool
  content : List Nat
deriving DecidableEq, Repr

/-- Record appended by the bufflib create_tar for one walk entry: the path is
stripped of the root prefix, the root itself is recorded as "./". -/
def toRecord : WalkEntry → TarRecord
  | .file p b => { name := tarName p, isDir := false, content := b.toBytes }
  | .dir p => { name := tarName p, isDir := true, content := [] }

/-- Record appended by the create_tar of src/cli/src/bin/buff/artifact.rs:
append_path stores the walker-yielded path unchanged, that is the walk root
argument joined with the relative path; no prefix stripping and no
current-directory marker for the root. -/
def binToRecord (rootArg : List String) : WalkEntry → TarRecord
  | .file p b =>
      { name := String.intercalate "/" (rootArg ++ p), isDir := false, content := b.toBytes }
  | .dir p =>
      { name := String.intercalate "/" (rootArg ++ p), isDir := true, content := [] }

/-- Byte framing of one record in the archive stream: name length, name
codepoints, kind flag, content length, content bytes. -/
def serializeRecord (r : TarRecord) : List Nat :=
  r.name.data.length ::
    (r.name.data.map Char.toNat ++ ((if r.isDir then 1 else 0) :: r.content.length :: r.content))

/-- Concatenated framing of a record sequence. -/
def serializeRecords : List TarRecord → List Nat
  | [] => []
  | r :: rs => serializeRecord r ++ serializeRecords rs

/-- Read exactly n elements from the stream, returning them and the rest. -/
def readN : Nat → List Nat → Option (List Nat × List Nat)
  | 0, bs => some ([], bs)
  | _ + 1, [] => none
  | n + 1, b :: bs =>
      match readN n bs with
      | none => none
      | some (xs, rest) => some (b :: xs, rest)

/-- Parse one framed record from the archive stream. -/
def parseRecord : List Nat → Option (TarRecord × List Nat)
  | [] => none
  | nLen :: bs =>
      match readN nLen bs with
      | none => none
      | some (nameCodes, rest1) =>
          match rest1 with
          | [] => none
          | kind :: rest2 =>
              match rest2 with
              | [] => none
              | cLen :: rest3 =>
                  match readN cLen rest3 with
                  | none => none
                  | some (content, rest4) =>
                      some ({ name := String.mk (nameCodes.map Char.ofNat),
                              isDir := kind == 1, content := content }, rest4)

/-- Parse a whole record sequence, with fuel bounding the record count. -/
def parseRecords : Nat → List Nat → Option (List TarRecord)
  | _, [] => some []
  | 0, _ :: _ => none
  | fuel + 1, b :: bs =>
      match parseRecord (b :: bs) with
      | none => none
      | some (r, rest) =>
          match parseRecords fuel rest with
          | none => none
          | some rs => some (r :: rs)

/-- Unpack an archive stream into its records; each record consumes at least
one stream element, so the stream length is enough fuel. -/
def unpackRecords (bs : List Nat) : Option (List TarRecord) :=
  parseRecords bs.length bs

/-- A seekable file modelled as its contents plus the current position. -/
structure MFile where
  data : List Nat
  pos : Nat
deriving DecidableEq, Repr

/-- Append bytes at the end of the file, advancing the position. -/
def mwrite (f : MFile) (bs : List Nat) : MFile :=
  { data := f.data ++ bs, pos := f.pos + bs.length }

/-- Seek to an absolute position (SeekFrom::Start). -/
def mseek (f : MFile) (n : Nat) : MFile :=
  { data := f.data, pos := n }

/-- Everything from the current position to the end of the file, as a reader
consuming the file would see it. -/
def mreadToEnd (f : MFile) : List Nat :=
  f.data.drop f.pos

/-- create_tar of src/cli/bufflib/src/artifact.rs: append a framed record for
every walk entry into a fresh temporary file, then seek the stream back to
offset zero before returning it. -/
def create_tar (entries : List WalkEntry) : MFile :=
  mseek (entries.foldl (fun f e => mwrite f (serializeRecord (toRecord e))) (MFile.mk [] 0)) 0

/-- create_tar of src/cli/src/bin/buff/artifact.rs: same loop, but each entry
is appended under its walker-yielded path (binToRecord). -/
def binCreateTar (rootArg : List String) (entries : List WalkEntry) : MFile :=
  mseek (entries.foldl (fun f e => mwrite f (serializeRecord (binToRecord rootArg e)))
    (MFile.mk [] 0)) 0

/-- Model of the external flate2 gzip codec in stored-block form: magic pair,
content length, raw content.  The repository only relies on the codec being a
lossless single-stream byte transform (spec section 4.3). -/
def gzipCompress (bs : List Nat) : List Nat :=
  31 :: 139 :: bs.length :: bs

/-- Inverse of the gzip codec model. -/
def gzipDecompress : List Nat → Option (List Nat)
  | 31 :: 139 :: n :: rest => if rest.length = n then some rest else none
  | _ => none

/-- get_compressed_tar of src/cli/bufflib/src/artifact.rs: the encoder reads
the tar file from its current position to the end and compresses it. -/
def get_compressed_tar (tar : MFile) : List Nat :=
  gzipCompress (mreadToEnd tar)

/-- get_artifact_bytes of src/cli/bufflib/src/artifact.rs: walk the directory
tree with ignore rules, pack the entries into a tar, gzip the tar. -/
def get_artifact_bytes (ign : List String → Bool) (tree : FsTree) : List Nat :=
  get_compressed_tar (create_tar (walkTree ign [] tree))

/-- The (name, content) pair of a record when it is a regular file. -/
def fileRecordPair (r : TarRecord) : Option (String × List Nat) :=
  if r.isDir then none else some (r.name, r.content)

/-- Decompress and unpack an artifact, returning the (entry name, content)
pairs of its regular-file records. -/
def artifactFilePairs (bs : List Nat) : Option (List (String × List Nat)) :=
  match gzipDecompress bs with
  | none => none
  | some tarBytes =>
      match unpackRecords tarBytes with
      | none => none
      | some rs => some (rs.filterMap fileRecordPair)

mutual
/-- The (relative path, content) pairs of the regular files of the tree at
relative path p, excluding every path matched by an ignore rule together with
its whole subtree; stated directly on the tree, independent of the archive
pipeline. -/
def treeFilePairs (ign : List String → Bool) (p : List String) : FsTree → List (String × List Nat)
  | .file b => [(tarName p, b.toBytes)]
  | .dir cs => forestFilePairs ign p cs
/-- File pairs of the children of a directory at relative path p. -/
def forestFilePairs (ign : List String → Bool) (p : List String) :
    FsForest → List (String × List Nat)
  | .nil => []
  | .cons n t rest =>
      (if ign (p ++ [n]) then [] else treeFilePairs ign (p ++ [n]) t) ++
        forestFilePairs ign p rest
end

/-- Per-registry credential (src/cli/bufflib/src/buff_cli_config.rs). -/
structure RegistryConfig where
  token : String
deriving DecidableEq, Repr

/-- The credential store (src/cli/bufflib/src/buff_cli_config.rs).  The
HashMap of registries is modelled as an association list with overwrite
insertion; keys stay unique and no iteration order is relied upon. -/
structure BuffCliConfig where
  preferred_registry : String
  registries : List (String × RegistryConfig)
deriving DecidableEq, Repr

/-- Remove every binding of a key from an association list. -/
def eraseKey {α β : Type} [DecidableEq α] (k : α) : List (α × β) → List (α × β)
  | [] => []
  | (k2, v) :: rest => if k2 = k then eraseKey k rest else (k2, v) :: eraseKey k rest

/-- Overwrite insertion into an association list (HashMap::insert). -/
def insertKV {α β : Type} [DecidableEq α] (k : α) (v : β) (m : List (α × β)) : List (α × β) :=
  eraseKey k m ++ [(k, v)]

/-- Lookup in an association list. -/
def lookupKV {α β : Type} [DecidableEq α] (k : α) : List (α × β) → Option β
  | [] => none
  | (k2, v) :: rest => if k2 = k then some v else lookupKV k rest

/-- BuffCliConfig::add_registry: insert or overwrite the credential for the
given url. -/
def BuffCliConfig.add_registry (c : BuffCliConfig) (url token : String) : BuffCliConfig :=
  { c with registries := insertKV url (RegistryConfig.mk token) c.registries }

/-- Stored token for a url, if any. -/
def BuffCliConfig.tokenFor (c : BuffCliConfig) (url : String) : Option String :=
  (lookupKV url c.registries).map RegistryConfig.token

/-- Data persisted in a file: a parsed credential-store document (the external
toml codec round-trips these documents, so they are modelled at value level)
or plain bytes. -/
inductive FileData where
  | configDoc (c : BuffCliConfig) : FileData
  | bytes (data : List Nat) : FileData
deriving DecidableEq, Repr

/-- Flat filesystem model: files keyed by absolute path components, plus the
set of existing directories (the root always exists). -/
structure FileSys where
  files : List (List String × FileData)
  dirs : List (List String)
deriving DecidableEq, Repr

/-- File content at a path, if the file exists. -/
def FileSys.fileLookup (fs : FileSys) (p : List String) : Option FileData :=
  lookupKV p fs.files

/-- Does a directory exist? The filesystem root always does. -/
def dirExists (fs : FileSys) (d : List String) : Bool :=
  d.isEmpty || fs.dirs.contains d

/-- Model of std::fs::create_dir: creates the single directory d and fails
when the parent directory is missing (it does not create ancestors). -/
def createDir (fs : FileSys) (d : List String) : Except String FileSys :=
  if dirExists fs d.dropLast then Except.ok { fs with dirs := d :: fs.dirs }
  else Except.error "Failed to create config dir"

/-- Model of File::create followed by a full write (also std::fs::write):
overwrite the file at p wholesale, failing when its directory is missing. -/
def fsWrite (fs : FileSys) (p : List String) (d : FileData) : Except String FileSys :=
  if dirExists fs p.dropLast then Except.ok { fs with files := insertKV p d fs.files }
  else Except.error "Failed to write file"

/-- Process environment: the BUFF_HOME and BUFF_REGISTRY_URL overrides, the
platform per-user configuration directory and the working directory. -/
structure Env where
  buffHome : Option (List String)
  buffRegistryUrl : Option String
  configDir : List String
  cwd : List String
deriving DecidableEq, Repr

/-- get_default_registry_url: the BUFF_REGISTRY_URL override, else the
hardcoded fallback endpoint. -/
def get_default_registry_url (env : Env) : String :=
  match env.buffRegistryUrl with
  | some s => s
  | none => "localhost:50051"

/-- get_config_path: under BUFF_HOME (joined to the working directory) when
set, else under the platform configuration directory. -/
def get_config_path (env : Env) : List String :=
  match env.buffHome with
  | some h => env.cwd ++ h ++ ["config.toml"]
  | none => env.configDir ++ ["buff", "config.toml"]

/-- BuffCliConfig::new: start from the defaults (empty mapping, default
preferred registry); when a config file exists at the resolved path, its
parsed contents replace the defaults wholesale; a file that does not parse as
a config document is a fatal error (an expect panic in the source). -/
def BuffCliConfig.new (env : Env) (fs : FileSys) : Except String BuffCliConfig :=
  match fs.fileLookup (get_config_path env) with
  | some (FileData.configDoc c) => Except.ok c
  | some (FileData.bytes _) => Except.error "Failed to parse toml"
  | none =>
      Except.ok { preferred_registry := get_default_registry_url env, registries := [] }

/-- BuffCliConfig::save: derive the config directory from the config path via
with_file_name, create that directory with create_dir (a single level) when it
is absent, then overwrite the config file wholesale. -/
def BuffCliConfig.save (c : BuffCliConfig) (env : Env) (fs : FileSys) : Except String FileSys :=
  let p := get_config_path env
  let d := p.dropLast
  if dirExists fs d then fsWrite fs p (FileData.configDoc c)
  else
    match createDir fs d with
    | Except.error e => Except.error e
    | Except.ok fs1 => fsWrite fs1 p (FileData.configDoc c)

/-- One RPC exchange observed on the channel. -/
inductive RpcCall where
  | loginCall (url email password : String) : RpcCall
  | publishCall (url : String) (artifact : List Nat) : RpcCall
deriving DecidableEq, Repr

/-- Outcome of a CLI flow: the result (a source panic is an error outcome),
the filesystem afterwards, and the RPC calls made. -/
structure RunOut where
  outcome : Except String Unit
  fs : FileSys
  calls : List RpcCall
deriving Repr

/-- login of src/cli/bufflib/src/registry.rs: load the config, resolve the
preferred registry, invoke the Login RPC (the auth argument abstracts the
AuthService client; a failure is an expect panic in the source, which leaves
the filesystem untouched), then add the (endpoint, token) credential and save
the store before returning. -/
def login (email password : String) (env : Env) (fs : FileSys)
    (auth : String → String → String → Except String String) : RunOut :=
  match BuffCliConfig.new env fs with
  | Except.error e => RunOut.mk (Except.error e) fs []
  | Except.ok config =>
      let registry_url := config.preferred_registry
      match auth registry_url email password with
      | Except.error _ =>
          RunOut.mk (Except.error "Failed RPC call") fs
            [RpcCall.loginCall registry_url email password]
      | Except.ok token =>
          match BuffCliConfig.save (config.add_registry registry_url token) env fs with
          | Except.error e =>
              RunOut.mk (Except.error e) fs [RpcCall.loginCall registry_url email password]
          | Except.ok fs1 =>
              RunOut.mk (Except.ok ()) fs1 [RpcCall.loginCall registry_url email password]

/-- Child of a directory by name. -/
def forestFind (n : String) : FsForest → Option FsTree
  | .nil => none
  | .cons n2 t rest => if n2 = n then some t else forestFind n rest

/-- Navigation to the subtree at a relative path. -/
def lookupTree : List String → FsTree → Option FsTree
  | [], t => some t
  | _ :: _, FsTree.file _ => none
  | n :: rest, FsTree.dir cs =>
      match forestFind n cs with
      | none => none
      | some t2 => lookupTree rest t2

/-- PackageMetadata::new over the manifest at buff.toml under the target
directory: read the file and parse it as toml (an unwrap panic in the source
when the file is missing or not a manifest document, an error outcome here). -/
def manifestOf (tree : FsTree) : Option PackageMetadata :=
  match lookupTree ["buff.toml"] tree with
  | some (FsTree.file (FileBody.manifestDoc m)) => some m
  | _ => none

/-- publish of src/cli/bufflib/src/registry.rs: load the config, resolve the
preferred registry (no stored token is consulted anywhere), read the manifest,
build the compressed artifact over the target tree, additionally write that
artifact to the hardcoded path /tmp/abc (save_artifact_to_path), then invoke
the Publish RPC with the artifact bytes.  The ign argument abstracts the
gitignore-style rules the walker finds in the tree; the pub argument abstracts
the RegistryService client. -/
def publish (env : Env) (fs : FileSys) (tree : FsTree) (ign : List String → Bool)
    (pub : String → List Nat → Except String Unit) : RunOut :=
  match BuffCliConfig.new env fs with
  | Except.error e => RunOut.mk (Except.error e) fs []
  | Except.ok config =>
      let registry_url := config.preferred_registry
      match manifestOf tree with
      | none => RunOut.mk (Except.error "Failed to read manifest") fs []
      | some _ =>
          let artifact_bytes := get_artifact_bytes ign tree
          match fsWrite fs ["tmp", "abc"] (FileData.bytes artifact_bytes) with
          | Except.error e => RunOut.mk (Except.error e) fs []
          | Except.ok fs1 =>
              match pub registry_url artifact_bytes with
              | Except.error _ =>
                  RunOut.mk (Except.error "Failed gRPC publish call") fs1
                    [RpcCall.publishCall registry_url artifact_bytes]
              | Except.ok _ =>
                  RunOut.mk (Except.ok ()) fs1
                    [RpcCall.publishCall registry_url artifact_bytes]

/-- Manifest of the end-to-end publish scenario: a package named demo. -/
def demoManifest : PackageMetadata :=
  { name := "demo", description := "", keywords := [], homepage := "", repository_url := "" }

/-- Directory pkg/ of the end-to-end publish scenario: a manifest buff.toml
with name demo, and one file src/main.txt with content "hi" (bytes 104 105);
no ignore files anywhere. -/
def demoTree : FsTree :=
  FsTree.dir (FsForest.cons "buff.toml" (FsTree.file (FileBody.manifestDoc demoManifest))
    (FsForest.cons "src"
      (FsTree.dir (FsForest.cons "main.txt" (FsTree.file (FileBody.bytes [104, 105]))
        FsForest.nil))
      FsForest.nil))

/-- No ignore rule matches anything. -/
def noIgn : List String → Bool := fun _ => false

/-- Environment of the end-to-end scenarios: BUFF_HOME points at the cfg
directory, no registry override. -/
def demoEnv : Env :=
  { buffHome := some ["cfg"], buffRegistryUrl := none, configDir := [], cwd := [] }

/-- Filesystem of the publish scenario: the empty configuration directory and
the tmp directory exist, no config file is stored. -/
def demoFs : FileSys :=
  { files := [], dirs := [["cfg"], ["tmp"]] }

/-- A Publish RPC stub whose server accepts everything. -/
def okPub : String → List Nat → Except String Unit := fun _ _ => Except.ok ()

/-- The compressed artifact the publish scenario produces. -/
def demoPayload : List Nat := get_artifact_bytes noIgn demoTree

/-- A Login RPC stub that always returns the token tok123. -/
def authTok123 : String → String → String → Except String String :=
  fun _ _ _ => Except.ok "tok123"

/-- A Login RPC stub that always reports invalid credentials. -/
def authBad : String → String → String → Except String String :=
  fun _ _ _ => Except.error "invalid credentials"

/-- A credential store with one prior registry, used to check that failed
logins leave existing state alone. -/
def priorConfig : BuffCliConfig :=
  { preferred_registry := "localhost:50051",
    registries := [("localhost:60000", RegistryConfig.mk "tok-old")] }

/-- Filesystem holding priorConfig persisted at the resolved location. -/
def priorFs : FileSys :=
  { files := [(["cfg", "config.toml"], FileData.configDoc priorConfig)], dirs := [["cfg"]] }

/-- Environment whose BUFF_HOME names a directory two levels deep, both
levels missing from the filesystem. -/
def deepEnv : Env :=
  { buffHome := some ["a", "b"], buffRegistryUrl := none, configDir := [], cwd := [] }

/-- A filesystem with no files and no directories beyond the root. -/
def emptyFs : FileSys :=
  { files := [], dirs := [] }

/-- Environment carrying a BUFF_REGISTRY_URL override next to an existing
config file. -/
def overrideEnv : Env :=
  { buffHome := some ["cfg"], buffRegistryUrl := some "reg.example:50051",
    configDir := [], cwd := [] }

/-! Helper lemmas about the archive stream. -/

theorem readN_append (l rest : List Nat) : readN l.length (l ++ rest) = some (l, rest) := by
  induction l with
  | nil => rfl
  | cons b bs ih => simp [readN, ih]

theorem parseRecord_serialize (r : TarRecord) (rest : List Nat) :
    parseRecord (serializeRecord r ++ rest) = some (r, rest) := by
  have hname : readN r.name.data.length
      (r.name.data.map Char.toNat ++
        ((if r.isDir then 1 else 0) :: r.content.length :: (r.content ++ rest))) =
      some (r.name.data.map Char.toNat,
        (if r.isDir then 1 else 0) :: r.content.length :: (r.content ++ rest)) := by
    have h := readN_append (r.name.data.map Char.toNat)
      ((if r.isDir then 1 else 0) :: r.content.length :: (r.content ++ rest))
    simpa using h
  have hcontent := readN_append r.content rest
  have hstr : String.mk ((r.name.data.map Char.toNat).map Char.ofNat) = r.name := by
    simp [List.map_map, Function.comp_def, Char.ofNat_toNat]
  have hkind : ((if r.isDir then 1 else 0) == 1) = r.isDir := by
    cases r.isDir <;> rfl
  simp only [serializeRecord, List.cons_append, List.append_assoc, parseRecord]
  rw [hname]
  dsimp only
  rw [hcontent]
  simp [hstr, hkind, Function.comp_def, Char.ofNat_toNat]

theorem parseRecords_succ_ne (f : Nat) (bs : List Nat) (hne : bs ≠ []) :
    parseRecords (f + 1) bs =
      match parseRecord bs with
      | none => none
      | some (r, rest) =>
          match parseRecords f rest with
          | none => none
          | some rs => some (r :: rs) := by
  cases bs with
  | nil => exact absurd rfl hne
  | cons b bs2 => rfl

theorem parseRecords_serialize (rs : List TarRecord) :
    ∀ fuel, rs.length ≤ fuel → parseRecords fuel (serializeRecords rs) = some rs := by
  induction rs with
  | nil => intro fuel _; cases fuel <;> rfl
  | cons r rest ih =>
      intro fuel h
      match fuel with
      | f + 1 =>
        have hne : serializeRecord r ++ serializeRecords rest ≠ [] := by
          simp [serializeRecord]
        calc parseRecords (f + 1) (serializeRecords (r :: rest))
            = parseRecords (f + 1) (serializeRecord r ++ serializeRecords rest) := rfl
          _ = some (r :: rest) := by
              rw [parseRecords_succ_ne f _ hne, parseRecord_serialize r (serializeRecords rest)]
              simp [ih f (Nat.le_of_succ_le_succ h)]

theorem length_serializeRecords (rs : List TarRecord) :
    rs.length ≤ (serializeRecords rs).length := by
  induction rs with
  | nil => simp [serializeRecords]
  | cons r rest ih =>
      have hr : (serializeRecord r).length = r.name.data.length + r.content.length + 3 := by
        simp [serializeRecord]; omega
      simp only [serializeRecords, List.length_append, List.length_cons]
      omega

theorem unpackRecords_serialize (rs : List TarRecord) :
    unpackRecords (serializeRecords rs) = some rs :=
  parseRecords_serialize rs (serializeRecords rs).length (length_serializeRecords rs)

theorem gzip_roundtrip (bs : List Nat) : gzipDecompress (gzipCompress bs) = some bs := by
  simp [gzipCompress, gzipDecompress]

theorem foldl_mwrite_data (g : WalkEntry → TarRecord) (es : List WalkEntry) :
    ∀ f : MFile,
      (es.foldl (fun f2 e => mwrite f2 (serializeRecord (g e))) f).data =
        f.data ++ serializeRecords (es.map g) := by
  induction es with
  | nil => intro f; simp [serializeRecords]
  | cons e rest ih =>
      intro f
      rw [List.foldl_cons, ih]
      simp [mwrite, serializeRecords]

theorem create_tar_data (es : List WalkEntry) :
    (create_tar es).data = serializeRecords (es.map toRecord) := by
  simpa [create_tar, mseek] using foldl_mwrite_data toRecord es (MFile.mk [] 0)

theorem create_tar_pos (es : List WalkEntry) : (create_tar es).pos = 0 := rfl

mutual
theorem treePairs_eq (ign : List String → Bool) (p : List String) (t : FsTree) :
    ((walkTree ign p t).map toRecord).filterMap fileRecordPair = treeFilePairs ign p t := by
  cases t with
  | file b => simp [walkTree, treeFilePairs, toRecord, fileRecordPair]
  | dir cs =>
      simp only [walkTree, treeFilePairs, List.map_cons, List.filterMap_cons, toRecord,
        fileRecordPair, if_pos rfl]
      exact forestPairs_eq ign p cs
theorem forestPairs_eq (ign : List String → Bool) (p : List String) (cs : FsForest) :
    ((walkForest ign p cs).map toRecord).filterMap fileRecordPair = forestFilePairs ign p cs := by
  cases cs with
  | nil => simp [walkForest, forestFilePairs]
  | cons n t rest =>
      by_cases hig : ign (p ++ [n]) <;>
        simp [walkForest, forestFilePairs, hig, List.map_append, List.filterMap_append,
          treePairs_eq ign (p ++ [n]) t, forestPairs_eq ign p rest]
end

/-- C1: for every directory tree and every set of ignore rules in force,
composing the three artifact-pipeline stages (collecting paths with ignore
rules, packing the collected entries into the archive, compressing the
archive) yields bytes that decompress and unpack to exactly the
(relative-path, content) pairs of the regular files of the tree, with every
path matched by an ignore rule excluded together with its subtree. -/
theorem artifact_roundtrip_minus_ignored (ign : List String → Bool) (tree : FsTree) :
    artifactFilePairs (get_artifact_bytes ign tree) = some (treeFilePairs ign [] tree) := by
  have h1 : mreadToEnd (create_tar (walkTree ign [] tree)) =
      serializeRecords ((walkTree ign [] tree).map toRecord) := by
    simp [mreadToEnd, create_tar_pos, create_tar_data]
  simp only [get_artifact_bytes, get_compressed_tar, artifactFilePairs, h1, gzip_roundtrip,
    unpackRecords_serialize, treePairs_eq]

theorem eraseKey_append {α β : Type} [DecidableEq α] (k : α) (m1 m2 : List (α × β)) :
    eraseKey k (m1 ++ m2) = eraseKey k m1 ++ eraseKey k m2 := by
  induction m1 with
  | nil => rfl
  | cons kv rest ih =>
      by_cases h : kv.1 = k <;> simp [eraseKey, h, ih]

theorem eraseKey_idem {α β : Type} [DecidableEq α] (k : α) (m : List (α × β)) :
    eraseKey k (eraseKey k m) = eraseKey k m := by
  induction m with
  | nil => rfl
  | cons kv rest ih =>
      by_cases h : kv.1 = k <;> simp [eraseKey, h, ih]

theorem insertKV_idem {α β : Type} [DecidableEq α] (k : α) (v : β) (m : List (α × β)) :
    insertKV k v (insertKV k v m) = insertKV k v m := by
  simp [insertKV, eraseKey_append, eraseKey_idem, eraseKey]

theorem lookupKV_eraseKey {α β : Type} [DecidableEq α] (k : α) (m : List (α × β)) :
    lookupKV k (eraseKey k m) = none := by
  induction m with
  | nil => rfl
  | cons kv rest ih =>
      by_cases h : kv.1 = k <;> simp [eraseKey, lookupKV, h, ih]

theorem lookupKV_append_none {α β : Type} [DecidableEq α] (k : α) (m1 m2 : List (α × β))
    (h : lookupKV k m1 = none) : lookupKV k (m1 ++ m2) = lookupKV k m2 := by
  induction m1 with
  | nil => rfl
  | cons kv rest ih =>
      by_cases h2 : kv.1 = k
      · simp [lookupKV, h2] at h
      · simp [lookupKV, h2] at h ⊢
        exact ih h

theorem lookupKV_insert_self {α β : Type} [DecidableEq α] (k : α) (v : β) (m : List (α × β)) :
    lookupKV k (insertKV k v m) = some v := by
  rw [insertKV, lookupKV_append_none k _ _ (lookupKV_eraseKey k m)]
  simp [lookupKV]

theorem tokenFor_add_self (c : BuffCliConfig) (u t : String) :
    (c.add_registry u t).tokenFor u = some t := by
  simp [BuffCliConfig.add_registry, BuffCliConfig.tokenFor, lookupKV_insert_self]

theorem add_registry_idem (c : BuffCliConfig) (u t : String) :
    (c.add_registry u t).add_registry u t = c.add_registry u t := by
  simp [BuffCliConfig.add_registry, insertKV_idem]

theorem dirExists_createDir_self (fs fs1 : FileSys) (d : List String)
    (h : createDir fs d = Except.ok fs1) : dirExists fs1 d = true := by
  unfold createDir at h
  split at h
  · cases h
    simp [dirExists, List.contains_cons]
  · cases h

theorem save_persists (c : BuffCliConfig) (env : Env) (fs fs' : FileSys)
    (h : c.save env fs = Except.ok fs') :
    fs'.fileLookup (get_config_path env) = some (FileData.configDoc c) := by
  simp only [BuffCliConfig.save] at h
  by_cases h1 : dirExists fs (get_config_path env).dropLast = true
  · rw [if_pos h1] at h
    simp only [fsWrite] at h
    rw [if_pos h1] at h
    cases h
    simp [FileSys.fileLookup, lookupKV_insert_self]
  · rw [if_neg h1] at h
    cases hc : createDir fs (get_config_path env).dropLast with
    | error e => rw [hc] at h; cases h
    | ok fs1 =>
        rw [hc] at h
        have hd : dirExists fs1 (get_config_path env).dropLast = true :=
          dirExists_createDir_self fs fs1 _ hc
        simp only [fsWrite] at h
        rw [if_pos hd] at h
        cases h
        simp [FileSys.fileLookup, lookupKV_insert_self]

/-- C8 (amended): the bufflib create_tar writes, for each consumed entry, a
framed record whose name is the path relative to the package root joined with
forward slashes, with the root entry recorded under the canonical
current-directory marker "./", and it repositions the stream to offset zero
after the last entry; the legacy create_tar of src/cli/src/bin/buff records
the walker-yielded path unmodified instead (see the counterexample). -/
theorem create_tar_relative_names_and_rewound (es : List WalkEntry) :
    (create_tar es).pos = 0 ∧
    unpackRecords (create_tar es).data = some (es.map toRecord) ∧
    ∀ e ∈ es, (toRecord e).name =
      (if e.relPath = [] then "./" else String.intercalate "/" e.relPath) := by
  refine ⟨rfl, ?_, ?_⟩
  · rw [create_tar_data, unpackRecords_serialize]
  · intro e he
    cases e <;> rfl

/-- C8 witness: on the walk of the demo tree, the returned stream sits at
offset zero and the root entry is recorded under "./". -/
theorem create_tar_relative_names_and_rewound_witness :
    (create_tar (walkTree noIgn [] demoTree)).pos = 0 ∧
    (toRecord (WalkEntry.dir [])).name = "./" := by
  refine ⟨(create_tar_relative_names_and_rewound (walkTree noIgn [] demoTree)).1, ?_⟩
  have h := (create_tar_relative_names_and_rewound (walkTree noIgn [] demoTree)).2.2
    (WalkEntry.dir []) (by decide)
  simpa using h

/-- C8 counterexample: the create_tar of src/cli/src/bin/buff/artifact.rs,
walking the directory pkg, names the root record "pkg" instead of "./" and
the file record "pkg/src/main.txt" instead of the root-relative
"src/main.txt". -/
theorem binCreateTar_names_not_relative :
    (unpackRecords (binCreateTar ["pkg"] [WalkEntry.dir [],
        WalkEntry.file ["src", "main.txt"] (FileBody.bytes [104, 105])]).data).map
      (List.map TarRecord.name) = some ["pkg", "pkg/src/main.txt"] ∧
    (["pkg", "pkg/src/main.txt"] : List String) ≠ ["./", "src/main.txt"] := by
  exact ⟨by decide, by decide⟩

/-- C2 counterexample: with no stored credential for the resolved registry,
publish does not fail: it invokes the Publish RPC with the artifact and
succeeds when the server accepts. -/
theorem publish_without_credential_succeeds :
    BuffCliConfig.new demoEnv demoFs =
      Except.ok { preferred_registry := "localhost:50051", registries := [] } ∧
    (publish demoEnv demoFs demoTree noIgn okPub).outcome = Except.ok () ∧
    (publish demoEnv demoFs demoTree noIgn okPub).calls =
      [RpcCall.publishCall "localhost:50051" demoPayload] := by
  exact ⟨rfl, rfl, by decide⟩

/-- C2 (amended): publish never consults the credential store: even when the
store holds no token for the resolved target registry, it builds the artifact
and invokes the Publish RPC, which succeeds whenever the server accepts; no
missing-credential failure exists. -/
theorem publish_ignores_credential_store (env : Env) (fs fs1 : FileSys) (tree : FsTree)
    (ign : List String → Bool) (pub : String → List Nat → Except String Unit)
    (c : BuffCliConfig) (m : PackageMetadata)
    (hnew : BuffCliConfig.new env fs = Except.ok c)
    (_hnotok : c.tokenFor c.preferred_registry = none)
    (hman : manifestOf tree = some m)
    (hw : fsWrite fs ["tmp", "abc"] (FileData.bytes (get_artifact_bytes ign tree)) =
      Except.ok fs1)
    (hpub : pub c.preferred_registry (get_artifact_bytes ign tree) = Except.ok ()) :
    publish env fs tree ign pub =
      RunOut.mk (Except.ok ()) fs1
        [RpcCall.publishCall c.preferred_registry (get_artifact_bytes ign tree)] := by
  simp [publish, hnew, hman, hw, hpub]

/-- C2 witness: the amended claim at the demo world, whose store holds no
credential at all. -/
theorem publish_ignores_credential_store_witness :
    publish demoEnv demoFs demoTree noIgn okPub =
      RunOut.mk (Except.ok ())
        (FileSys.mk [(["tmp", "abc"], FileData.bytes demoPayload)] [["cfg"], ["tmp"]])
        [RpcCall.publishCall "localhost:50051" demoPayload] := by
  exact publish_ignores_credential_store demoEnv demoFs
    (FileSys.mk [(["tmp", "abc"], FileData.bytes demoPayload)] [["cfg"], ["tmp"]])
    demoTree noIgn okPub (BuffCliConfig.mk "localhost:50051" []) demoManifest
    rfl rfl rfl rfl rfl

/-- C3 counterexample: on the demo package (buff.toml with name demo plus
src/main.txt containing "hi", no ignore files), the archive built by publish
does not have src/main.txt as its only file entry: buff.toml is archived
too. -/
theorem demo_archive_not_single_entry :
    artifactFilePairs demoPayload ≠ some [("src/main.txt", [104, 105])] := by
  decide

/-- C3 (amended): publish on the demo package sends exactly the compressed
archive as the Publish RPC payload, and that archive's file entries are
exactly buff.toml (the manifest text) and src/main.txt with content "hi". -/
theorem demo_publish_payload_and_contents :
    (publish demoEnv demoFs demoTree noIgn okPub).calls =
      [RpcCall.publishCall "localhost:50051" demoPayload] ∧
    artifactFilePairs demoPayload =
      some [("buff.toml", renderManifest demoManifest), ("src/main.txt", [104, 105])] := by
  exact ⟨by decide, by decide⟩

/-- C9: after a completed publish, a copy of the compressed artifact is left
behind at the hardcoded path /tmp/abc, a file outside the declared outputs
(save_artifact_to_path in publish, src/cli/bufflib/src/registry.rs). -/
theorem publish_leaves_artifact_in_tmp :
    (publish demoEnv demoFs demoTree noIgn okPub).outcome = Except.ok () ∧
    (publish demoEnv demoFs demoTree noIgn okPub).fs.fileLookup ["tmp", "abc"] =
      some (FileData.bytes demoPayload) := by
  exact ⟨rfl, by decide⟩

/-- C4: when the Login RPC succeeds with a token, login stores the pair
(resolved endpoint, token) in the credential store and persists the store
before returning: the persisted file at the resolved configuration path holds
the updated store, whose credential for the endpoint is the token. -/
theorem login_persists_token (email password t : String) (env : Env) (fs fs' : FileSys)
    (c : BuffCliConfig) (auth : String → String → String → Except String String)
    (hnew : BuffCliConfig.new env fs = Except.ok c)
    (hauth : auth c.preferred_registry email password = Except.ok t)
    (hsave : (c.add_registry c.preferred_registry t).save env fs = Except.ok fs') :
    login email password env fs auth =
      RunOut.mk (Except.ok ()) fs' [RpcCall.loginCall c.preferred_registry email password] ∧
    fs'.fileLookup (get_config_path env) =
      some (FileData.configDoc (c.add_registry c.preferred_registry t)) ∧
    (c.add_registry c.preferred_registry t).tokenFor c.preferred_registry = some t := by
  refine ⟨?_, save_persists _ env fs fs' hsave, tokenFor_add_self c _ t⟩
  simp [login, hnew, hauth, hsave]

/-- C4 witness: with the configuration root pointed at an empty directory and
a registry stub that always returns tok123, the persisted store afterwards
maps the resolved endpoint localhost:50051 to the token tok123. -/
theorem login_persists_token_witness :
    login "a@b.com" "pw" demoEnv demoFs authTok123 =
      RunOut.mk (Except.ok ())
        (FileSys.mk [(["cfg", "config.toml"],
          FileData.configDoc (BuffCliConfig.mk "localhost:50051"
            [("localhost:50051", RegistryConfig.mk "tok123")]))] [["cfg"], ["tmp"]])
        [RpcCall.loginCall "localhost:50051" "a@b.com" "pw"] ∧
    (FileSys.mk [(["cfg", "config.toml"],
        FileData.configDoc (BuffCliConfig.mk "localhost:50051"
          [("localhost:50051", RegistryConfig.mk "tok123")]))]
      [["cfg"], ["tmp"]] : FileSys).fileLookup (get_config_path demoEnv) =
      some (FileData.configDoc (BuffCliConfig.mk "localhost:50051"
        [("localhost:50051", RegistryConfig.mk "tok123")])) ∧
    (BuffCliConfig.mk "localhost:50051"
      [("localhost:50051", RegistryConfig.mk "tok123")]).tokenFor "localhost:50051" =
      some "tok123" := by
  exact login_persists_token "a@b.com" "pw" "tok123" demoEnv demoFs
    (FileSys.mk [(["cfg", "config.toml"],
      FileData.configDoc (BuffCliConfig.mk "localhost:50051"
        [("localhost:50051", RegistryConfig.mk "tok123")]))] [["cfg"], ["tmp"]])
    (BuffCliConfig.mk "localhost:50051" []) authTok123 rfl rfl rfl

/-- C5: when the Login RPC reports invalid credentials, the attempt aborts
(the source panics on the expect) and the credential store is identical before
and after, both the in-memory state that is dropped and the persisted file,
which is never rewritten. -/
theorem login_failure_preserves_store (email password e : String) (env : Env) (fs : FileSys)
    (c : BuffCliConfig) (auth : String → String → String → Except String String)
    (hnew : BuffCliConfig.new env fs = Except.ok c)
    (hauth : auth c.preferred_registry email password = Except.error e) :
    (login email password env fs auth).fs = fs ∧
    (login email password env fs auth).outcome = Except.error "Failed RPC call" := by
  simp [login, hnew, hauth]

/-- C5 witness: a failing login against a store with prior contents leaves
the filesystem, hence the persisted store, exactly as it was. -/
theorem login_failure_preserves_store_witness :
    (login "a@b.com" "pw" demoEnv priorFs authBad).fs = priorFs ∧
    (login "a@b.com" "pw" demoEnv priorFs authBad).outcome =
      Except.error "Failed RPC call" := by
  exact login_failure_preserves_store "a@b.com" "pw" "invalid credentials" demoEnv priorFs
    priorConfig authBad rfl rfl

/-- C6: add_registry is idempotent, and after add_registry(u, t); save(),
reloading the store from the persisted file yields exactly the saved store,
whose credential for u is t, regardless of the prior registries of the
store. -/
theorem add_registry_save_load_roundtrip (c : BuffCliConfig) (u t : String) (env : Env)
    (fs fs' : FileSys)
    (hsave : (c.add_registry u t).save env fs = Except.ok fs') :
    (c.add_registry u t).add_registry u t = c.add_registry u t ∧
    BuffCliConfig.new env fs' = Except.ok (c.add_registry u t) ∧
    (c.add_registry u t).tokenFor u = some t := by
  refine ⟨add_registry_idem c u t, ?_, tokenFor_add_self c u t⟩
  have h := save_persists (c.add_registry u t) env fs fs' hsave
  simp [BuffCliConfig.new, h]

/-- C6 witness: adding tok-new for localhost:50052 to a store with a prior
credential for another url, saving into the cfg directory, and reloading
yields that credential back. -/
theorem add_registry_save_load_roundtrip_witness :
    (priorConfig.add_registry "localhost:50052" "tok-new").add_registry "localhost:50052"
        "tok-new" = priorConfig.add_registry "localhost:50052" "tok-new" ∧
    BuffCliConfig.new demoEnv
        (FileSys.mk [(["cfg", "config.toml"],
          FileData.configDoc (priorConfig.add_registry "localhost:50052" "tok-new"))]
          [["cfg"], ["tmp"]]) =
      Except.ok (priorConfig.add_registry "localhost:50052" "tok-new") ∧
    (priorConfig.add_registry "localhost:50052" "tok-new").tokenFor "localhost:50052" =
      some "tok-new" := by
  exact add_registry_save_load_roundtrip priorConfig "localhost:50052" "tok-new" demoEnv
    demoFs
    (FileSys.mk [(["cfg", "config.toml"],
      FileData.configDoc (priorConfig.add_registry "localhost:50052" "tok-new"))]
      [["cfg"], ["tmp"]]) rfl

/-- C7 counterexample: with BUFF_HOME naming a directory whose parent is also
missing, save fails (std::fs::create_dir creates a single level only); it does
not create nested missing ancestors. -/
theorem save_missing_ancestors_fails :
    priorConfig.save deepEnv emptyFs = Except.error "Failed to create config dir" := rfl

/-- C7 (amended): save writes the serialized store wholesale to the resolved
configuration location, creating the configuration directory when it is
absent, provided the directory itself or its parent exists; when the parent
is also missing, save fails (see the counterexample). -/
theorem save_creates_single_missing_dir (c : BuffCliConfig) (env : Env) (fs : FileSys)
    (h : dirExists fs (get_config_path env).dropLast = true ∨
      dirExists fs (get_config_path env).dropLast.dropLast = true) :
    ∃ fs', c.save env fs = Except.ok fs' ∧
      fs'.fileLookup (get_config_path env) = some (FileData.configDoc c) := by
  simp only [BuffCliConfig.save]
  by_cases h1 : dirExists fs (get_config_path env).dropLast = true
  · rw [if_pos h1]
    simp only [fsWrite]
    rw [if_pos h1]
    exact ⟨_, rfl, by simp [FileSys.fileLookup, lookupKV_insert_self]⟩
  · have h2 : dirExists fs (get_config_path env).dropLast.dropLast = true := h.resolve_left h1
    rw [if_neg h1]
    simp only [createDir]
    rw [if_pos h2]
    simp only [fsWrite]
    have h3 : dirExists (FileSys.mk fs.files ((get_config_path env).dropLast :: fs.dirs))
        (get_config_path env).dropLast = true := by
      simp [dirExists, List.contains_cons]
    rw [if_pos h3]
    exact ⟨_, rfl, by simp [FileSys.fileLookup, lookupKV_insert_self]⟩

/-- C7 witness: saving into the existing empty cfg directory succeeds and
persists the store. -/
theorem save_creates_single_missing_dir_witness :
    ∃ fs', priorConfig.save demoEnv demoFs = Except.ok fs' ∧
      fs'.fileLookup (get_config_path demoEnv) = some (FileData.configDoc priorConfig) := by
  exact save_creates_single_missing_dir priorConfig demoEnv demoFs (Or.inl (by decide))

/-- C10: when a config file exists at the resolved configuration path,
constructing the store returns exactly that file's deserialized contents, and
the BUFF_REGISTRY_URL override is irrelevant; when no file exists, the store
defaults to the empty mapping with the override (or the hardcoded fallback)
as preferred registry, so the override matters only in that case. -/
theorem config_file_overrides_env (env : Env) (fs : FileSys) (c : BuffCliConfig) (u : String) :
    (fs.fileLookup (get_config_path env) = some (FileData.configDoc c) →
      BuffCliConfig.new env fs = Except.ok c ∧
      BuffCliConfig.new { env with buffRegistryUrl := some u } fs = Except.ok c) ∧
    (fs.fileLookup (get_config_path env) = none →
      BuffCliConfig.new env fs = Except.ok
        { preferred_registry := get_default_registry_url env, registries := [] } ∧
      get_default_registry_url { env with buffRegistryUrl := some u } = u) := by
  have hpath : get_config_path { env with buffRegistryUrl := some u } = get_config_path env := by
    cases env with
    | mk bh br cd cw => cases bh <;> rfl
  constructor
  · intro h
    constructor
    · simp [BuffCliConfig.new, h]
    · simp [BuffCliConfig.new, hpath, h]
  · intro h
    constructor
    · simp [BuffCliConfig.new, h]
    · rfl

/-- C10 witness: with a persisted store present, the BUFF_REGISTRY_URL
override of overrideEnv is ignored; with no file, the store takes the default
endpoint. -/
theorem config_file_overrides_env_witness :
    BuffCliConfig.new overrideEnv priorFs = Except.ok priorConfig ∧
    BuffCliConfig.new demoEnv demoFs =
      Except.ok { preferred_registry := "localhost:50051", registries := [] } := by
  constructor
  · exact ((config_file_overrides_env overrideEnv priorFs priorConfig "x").1 (by decide)).1
  · exact ((config_file_overrides_env demoEnv demoFs priorConfig "x").2 (by decide)).1
